import Mathlib

/-!
# Verification of the wled-bandwidth-meter render core (src/main.rs)

Shallow embedding of the render engine of `wled-bandwidth-meter`
(`src/main.rs`).  Conventions used throughout:

* `f64` values are modelled as exact rationals (`ℚ`); the render-core claims
  under scrutiny are about the algebraic shape of the computations, which the
  source expresses with small constants, so the idealized-real model is the
  standard shallow embedding.  Where a claim is specifically about IEEE
  special values (NaN / infinities, claim C10), a dedicated `EFloat` model
  with explicit NaN/±inf cases is used instead.
* `usize` / `u128` values are modelled as `ℕ`.  Rust float-to-integer `as`
  casts saturate (NaN ↦ 0, negatives ↦ 0); they are modelled by
  `Int.toNat ∘ Int.floor` (plus an explicit upper saturation bound in the
  `EFloat` model where it matters).  `usize` subtraction is modelled by
  truncated `ℕ` subtraction; every theorem below stays in the region where
  no underflow occurs, matching the source's panic-free executions.
* Rust strings are modelled as `List Char` (character level; for the ASCII
  inputs the color paths deal in, Rust's byte-level lengths and slicing
  coincide with the character-level model).
* Fallible Rust code (`Result`, `?`) is modelled with `Option`.
-/

/-- Color model, `struct Rgb` of `src/main.rs:459-464` (three 8-bit
channels, modelled as `ℕ`, always < 256 when produced by parsing). -/
structure Rgb where
  r : ℕ
  g : ℕ
  b : ℕ
deriving DecidableEq, Repr

/-- Value of a single hexadecimal digit character, as accepted by Rust's
`u8::from_str_radix(_, 16)` (which uses `char::to_digit(16)`): `0-9`,
`a-f`, `A-F`. -/
def hexDigitVal? (c : Char) : Option ℕ :=
  if '0' ≤ c ∧ c ≤ '9' then some (c.toNat - '0'.toNat)
  else if 'a' ≤ c ∧ c ≤ 'f' then some (c.toNat - 'a'.toNat + 10)
  else if 'A' ≤ c ∧ c ≤ 'F' then some (c.toNat - 'A'.toNat + 10)
  else none

/-- Model of `u8::from_str_radix(slice, 16)` on a two-character slice, as
used by `Rgb::from_hex` (`src/main.rs:473-475`).  Rust's `from_str_radix`
accepts an optional leading `+` sign before the digits, so a two-character
slice parses when it is either two hex digits or a `+` followed by one hex
digit (two hex digits can never overflow `u8`). -/
def parseByte (c1 c2 : Char) : Option ℕ :=
  if c1 = '+' then hexDigitVal? c2
  else
    match hexDigitVal? c1, hexDigitVal? c2 with
    | some d1, some d2 => some (16 * d1 + d2)
    | _, _ => none

/-- Model of `Rgb::from_hex` (`src/main.rs:467-477`): strip every leading
`#` (`trim_start_matches('#')`), require exactly six remaining characters,
and parse the three two-character groups with `u8::from_str_radix(_, 16)`. -/
def from_hex (s : List Char) : Option Rgb :=
  match s.dropWhile (fun c => c = '#') with
  | [c1, c2, c3, c4, c5, c6] =>
    match parseByte c1 c2, parseByte c3 c4, parseByte c5 c6 with
    | some r, some g, some b => some ⟨r, g, b⟩
    | _, _, _ => none
  | _ => none

/-- Model of `Renderer::calculate_leds` (`src/main.rs:643-647`):
`percentage = bandwidth / max`, `(percentage * lpd as f64) as usize`,
then `.min(lpd)`.  The `as usize` cast is `Int.toNat ∘ Int.floor` here; its
upper saturation at `usize::MAX` is invisible behind the final `min` for any
real `leds_per_direction : usize`. -/
def calculate_leds (bandwidth_kbps max_bandwidth_kbps : ℚ)
    (leds_per_direction : ℕ) : ℕ :=
  min (Int.toNat ⌊bandwidth_kbps / max_bandwidth_kbps * (leds_per_direction : ℚ)⌋)
    leds_per_direction

/-- Model of the bandwidth-interpolation step of `Renderer::render_frame`
(`src/main.rs:721-734`), for one direction.  `last_update_elapsed_ms` is
`Some` of `last_update.elapsed()` in milliseconds when
`state.last_bandwidth_update` exists, `None` otherwise. -/
def interpolate_bandwidth (last_update_elapsed_ms : Option ℚ)
    (interpolation_time_ms start_kbps current_kbps : ℚ) : ℚ :=
  match last_update_elapsed_ms with
  | some elapsed_ms =>
    start_kbps + (current_kbps - start_kbps) *
      min (elapsed_ms / interpolation_time_ms) 1
  | none => current_kbps

/-- Model of `state.rx_split_percent.clamp(0.0, 100.0)` at
`src/main.rs:745`. -/
def clamped_rx_split (rx_split_percent : ℚ) : ℚ :=
  min (max rx_split_percent 0) 100

/-- Model of `((total_leds as f64 * rx_split_percent) / 100.0) as usize`
(`src/main.rs:756`), applied to the already clamped split percentage. -/
def rx_leds_available (total_leds : ℕ) (rx_split_percent : ℚ) : ℕ :=
  Int.toNat ⌊(total_leds : ℚ) * clamped_rx_split rx_split_percent / 100⌋

/-- Model of `total_leds - rx_leds_available` (`src/main.rs:757`). -/
def tx_leds_available (total_leds : ℕ) (rx_split_percent : ℚ) : ℕ :=
  total_leds - rx_leds_available total_leds rx_split_percent

/-- Interpolation mode, `enum InterpolationMode` of `src/main.rs:408-413`. -/
inductive InterpolationMode where
  | Linear : InterpolationMode
  | Basis : InterpolationMode
  | CatmullRom : InterpolationMode
deriving DecidableEq, Repr

/-- Color value of the `colorgrad` crate (`csscolorparser::Color`): four
float channels in `[0,1]`, modelled as rationals. -/
structure GradColor where
  r : ℚ
  g : ℚ
  b : ℚ
  a : ℚ
deriving DecidableEq, Repr

/-- Model of `Color::from_rgba8(r, g, b, 255)` (`src/main.rs:506`): each
8-bit channel divided by 255, alpha 1. -/
def from_rgba8 (c : Rgb) : GradColor :=
  ⟨(c.r : ℚ) / 255, (c.g : ℚ) / 255, (c.b : ℚ) / 255, 1⟩

/-- The `segment_size` of `build_gradient_from_color` (`src/main.rs:502`):
`1.0 / n as f64`. -/
def segmentSize (n : ℕ) : ℚ := 1 / (n : ℚ)

/-- The `transition_size` of `build_gradient_from_color`
(`src/main.rs:503`): `segment_size * 0.1`. -/
def transitionSize (n : ℕ) : ℚ := segmentSize n * (1 / 10)

/-- The `plateau_start` for color index `i` (`src/main.rs:511`):
`segment_start + transition_size` with `segment_start = i * segment_size`. -/
def plateauStart (n i : ℕ) : ℚ := (i : ℚ) * segmentSize n + transitionSize n

/-- The `plateau_end` for color index `i` (`src/main.rs:513`):
`segment_end - transition_size` with `segment_end = (i+1) * segment_size`. -/
def plateauEnd (n i : ℕ) : ℚ := ((i : ℚ) + 1) * segmentSize n - transitionSize n

/-- The control-stop-building loop of `build_gradient_from_color`
(`src/main.rs:505-530`), as a recursion over the remaining colors with `i`
the current loop index and `n` the total number of colors: each iteration
pushes the color at position `0.0` (if `i = 0`) or at its `plateau_start`
(otherwise), and additionally at its `plateau_end` when `i < n - 1`. -/
def stopsBody (n : ℕ) : ℕ → List Rgb → List (GradColor × ℚ)
  | _, [] => []
  | i, rgb :: rest =>
    (if i = 0 then [(from_rgba8 rgb, 0)] else [(from_rgba8 rgb, plateauStart n i)]) ++
      (if i < n - 1 then [(from_rgba8 rgb, plateauEnd n i)] else []) ++
      stopsBody n (i + 1) rest

/-- The full control-stop list of `build_gradient_from_color`
(`src/main.rs:505-539`): the loop stops followed by the cyclic tail, which
duplicates the first color at `1.0 - transition_size` and at `1.0` when the
color list is nonempty (`src/main.rs:532-539`). -/
def gradientStops (colors : List Rgb) : List (GradColor × ℚ) :=
  stopsBody colors.length 0 colors ++
    match colors with
    | [] => []
    | first :: _ =>
      [(from_rgba8 first, 1 - transitionSize colors.length),
       (from_rgba8 first, 1)]

/-- The built `colorgrad::Gradient` (`src/main.rs:547-551`): its control
stops (colors paired with their domain values) and the requested
interpolation method. -/
structure Gradient where
  stops : List (GradColor × ℚ)
  interpolation : InterpolationMode
deriving DecidableEq, Repr

/-- Model of `str::split(',')` on a character list: splits into the
(possibly empty) runs between commas. -/
def splitOnComma (s : List Char) : List (List Char) :=
  s.foldr
    (fun c acc =>
      match acc with
      | [] => [[]]
      | cur :: done => if c = ',' then [] :: cur :: done else (c :: cur) :: done)
    [[]]

/-- ASCII whitespace recognizer backing the model of `str::trim`. -/
def isSpaceChar (c : Char) : Bool :=
  c = ' ' || c = '\t' || c = '\n' || c = '\r'

/-- Model of `str::trim` on a character list (ASCII whitespace). -/
def trimChars (s : List Char) : List Char :=
  ((s.dropWhile isSpaceChar).reverse.dropWhile isSpaceChar).reverse

/-- Model of `build_gradient_from_color` (`src/main.rs:481-566`): split the
spec string on commas, trim and parse every entry (any failure aborts the
whole call, modelling `?`), build the plateaued cyclic control stops when
at least two colors were parsed and `use_gradient` is set, and return the
optional gradient, the parsed palette and the solid fallback color (first
parsed color, or the hardcoded `"0099FF"` default for an empty list). -/
def build_gradient_from_color (color_str : List Char) (use_gradient : Bool)
    (interpolation_mode : InterpolationMode) :
    Option (Option Gradient × List Rgb × Rgb) :=
  match ((splitOnComma color_str).map trimChars).mapM from_hex with
  | none => none
  | some rgb_colors =>
    let gradient : Option Gradient :=
      if 2 ≤ rgb_colors.length ∧ use_gradient = true then
        some ⟨gradientStops rgb_colors, interpolation_mode⟩
      else none
    match rgb_colors with
    | first :: _ => some (gradient, rgb_colors, first)
    | [] =>
      match from_hex ("0099FF".toList) with
      | some fallback => some (gradient, rgb_colors, fallback)
      | none => none

/-- Linear interpolation between two gradient colors. -/
def lerpColor (x y : GradColor) (t : ℚ) : GradColor :=
  ⟨x.r + (y.r - x.r) * t, x.g + (y.g - x.g) * t,
   x.b + (y.b - x.b) * t, x.a + (y.a - x.a) * t⟩

/-- Segment scan backing `sampleLinear`: `cPrev`/`dPrev` are the color and
domain of the previous control stop; the first stop whose domain reaches
`t` closes the segment that is linearly interpolated. -/
def sampleLinearAux (cPrev : GradColor) (dPrev : ℚ) :
    List (GradColor × ℚ) → ℚ → GradColor
  | [], _ => cPrev
  | (c, d) :: rest, t =>
    if t ≤ d then lerpColor cPrev c ((t - dPrev) / (d - dPrev))
    else sampleLinearAux c d rest t

/-- Model of `colorgrad::Gradient::at` for linearly interpolated custom
gradients: positions at or below the first stop's domain give the first
color, positions beyond the last stop's domain give the last color, and
positions in between are linearly interpolated inside their segment. -/
def sampleLinear (stops : List (GradColor × ℚ)) (t : ℚ) : GradColor :=
  match stops with
  | [] => ⟨0, 0, 0, 0⟩
  | (c0, d0) :: rest => if t ≤ d0 then c0 else sampleLinearAux c0 d0 rest t

/-- Rendering of the spec sentence "`rx_available = round(total_leds *
rx_split_percent / 100)`" (claim C4), to be compared against the source's
`rx_leds_available`: identical except that the float is rounded to the
nearest integer instead of truncated. -/
def rx_leds_available_specRound (total_leds : ℕ) (rx_split_percent : ℚ) : ℕ :=
  Int.toNat (round ((total_leds : ℚ) * clamped_rx_split rx_split_percent / 100))

/-- Direction mode, `enum DirectionMode` of `src/main.rs:415-421`. -/
inductive DirectionMode where
  | Mirrored : DirectionMode
  | Opposing : DirectionMode
  | Left : DirectionMode
  | Right : DirectionMode
deriving DecidableEq, Repr

/-- Model of `Renderer::calculate_led_positions` (`src/main.rs:670-711`).
The `usize` expressions `half - 1 - i` and `total_leds - 1 - i` are
truncated `ℕ` subtractions; they agree with the source wherever the source
does not underflow, which covers every theorem below. -/
def calculate_led_positions (tx_leds rx_leds : ℕ) (direction : DirectionMode)
    (swap : Bool) (total_leds leds_per_direction : ℕ) : List ℕ × List ℕ :=
  let half := leds_per_direction
  let first_half_leds := if swap then tx_leds else rx_leds
  let second_half_leds := if swap then rx_leds else tx_leds
  let pos :=
    match direction with
    | DirectionMode.Mirrored =>
      ((List.range first_half_leds).map (fun i => half - 1 - i),
       (List.range second_half_leds).map (fun i => half + i))
    | DirectionMode.Opposing =>
      (List.range first_half_leds,
       (List.range second_half_leds).map (fun i => total_leds - 1 - i))
    | DirectionMode.Left =>
      ((List.range first_half_leds).map (fun i => half - 1 - i),
       (List.range second_half_leds).map (fun i => total_leds - 1 - i))
    | DirectionMode.Right =>
      (List.range first_half_leds,
       (List.range second_half_leds).map (fun i => half + i))
  if swap then (pos.1, pos.2) else (pos.2, pos.1)

/-- Model of the strobe-resolution step of `Renderer::render_frame`
(`src/main.rs:764-790`), returning the `(rx_strobe_active,
tx_strobe_active)` pair.  `now_ms` is the wall clock in whole milliseconds
since the Unix epoch.  `cycle_ms` is `(1000.0 / strobe_rate_hz) as u128`
(truncation) and the duration is `strobe_duration_ms as u128` (truncating,
saturating at 0 for negatives).  When the truncated cycle is zero the
source's `elapsed_millis % cycle_ms` panics, modelled by `none`. -/
def strobe_flags (strobe_on_max : Bool) (strobe_rate_hz strobe_duration_ms : ℚ)
    (now_ms rx_leds rx_avail tx_leds tx_avail : ℕ) : Option (Bool × Bool) :=
  if strobe_on_max = true ∧ 0 < strobe_rate_hz then
    let cycle_ms := Int.toNat ⌊1000 / strobe_rate_hz⌋
    if cycle_ms = 0 then none
    else
      let clamped_duration := min (Int.toNat ⌊strobe_duration_ms⌋) cycle_ms
      let position_in_cycle := now_ms % cycle_ms
      let strobe_phase_active := decide (cycle_ms - clamped_duration ≤ position_in_cycle)
      some (decide (rx_avail ≤ rx_leds) && strobe_phase_active,
            decide (tx_avail ≤ tx_leds) && strobe_phase_active)
  else some (false, false)

/-- Rendering of the strobe window exactly as claim C7 words it, to be
compared with the source's `strobe_flags`: the offset of `now_ms` into a
cycle of (real-valued) length `1000 / strobe_rate_hz` milliseconds falls
within the trailing `min(strobe_duration_ms, cycle)` milliseconds of that
cycle. -/
def claimStrobeWindow (strobe_rate_hz strobe_duration_ms : ℚ) (now_ms : ℕ) : Prop :=
  let cycle : ℚ := 1000 / strobe_rate_hz
  let offset : ℚ := (now_ms : ℚ) - cycle * ⌊(now_ms : ℚ) / cycle⌋
  cycle - min strobe_duration_ms cycle ≤ offset

/-- The fields of `SharedRenderState` (`src/main.rs:425-457`) that
`Renderer::rebuild_gradients_if_needed` reads. -/
structure GradientConfig where
  tx_color : List Char
  rx_color : List Char
  use_gradient : Bool
  interpolation_mode : InterpolationMode
  generation : ℕ
deriving DecidableEq, Repr

/-- The gradient cache owned by the renderer thread
(`src/main.rs:578-587`). -/
structure RendererCache where
  tx_gradient : Option Gradient
  rx_gradient : Option Gradient
  tx_colors : List Rgb
  rx_colors : List Rgb
  tx_solid_color : Rgb
  rx_solid_color : Rgb
  last_generation : ℕ
deriving DecidableEq, Repr

/-- Model of `Renderer::rebuild_gradients_if_needed`
(`src/main.rs:621-641`): when the snapshot generation differs from the
cached one, rebuild both gradients (propagating any build failure,
modelling `?`) and install the new generation; otherwise leave the cache
untouched.  The returned `Bool` records whether
`build_gradient_from_color` was invoked. -/
def rebuild_gradients_if_needed (state : GradientConfig) (cache : RendererCache) :
    Option (RendererCache × Bool) :=
  if state.generation ≠ cache.last_generation then
    match build_gradient_from_color state.tx_color state.use_gradient
        state.interpolation_mode with
    | none => none
    | some (tx_gradient, tx_colors, tx_solid_color) =>
      match build_gradient_from_color state.rx_color state.use_gradient
          state.interpolation_mode with
      | none => none
      | some (rx_gradient, rx_colors, rx_solid_color) =>
        some ({ tx_gradient := tx_gradient, rx_gradient := rx_gradient,
                tx_colors := tx_colors, rx_colors := rx_colors,
                tx_solid_color := tx_solid_color, rx_solid_color := rx_solid_color,
                last_generation := state.generation }, true)
  else some (cache, false)

/-- IEEE-style `f64` value for claim C10: NaN, a signed infinity
(`true` = positive), or a finite value modelled exactly as a rational.
Negative zero and finite-overflow-to-infinity are not distinguished from
their exact-rational counterparts; neither affects the claim, which only
sorts results by NaN / negative / infinite cases. -/
inductive EFloat where
  | nan : EFloat
  | inf : Bool → EFloat
  | fin : ℚ → EFloat
deriving DecidableEq, Repr

/-- IEEE `f64` division for the operand shapes reachable in
`calculate_leds`: NaN propagates, `inf / inf = NaN`, `inf / finite` keeps
or flips the sign, `finite / inf = 0`, `finite / 0` is NaN (for `0 / 0`)
or a signed infinity, and `finite / finite` is exact. -/
def efDiv : EFloat → EFloat → EFloat
  | EFloat.nan, _ => EFloat.nan
  | _, EFloat.nan => EFloat.nan
  | EFloat.inf _, EFloat.inf _ => EFloat.nan
  | EFloat.inf s, EFloat.fin q => if q < 0 then EFloat.inf (!s) else EFloat.inf s
  | EFloat.fin _, EFloat.inf _ => EFloat.fin 0
  | EFloat.fin a, EFloat.fin b =>
    if b = 0 then (if a = 0 then EFloat.nan else EFloat.inf (decide (0 < a)))
    else EFloat.fin (a / b)

/-- IEEE `f64` multiplication for the operand shapes reachable in
`calculate_leds`: NaN propagates, `inf * 0 = NaN`, infinities multiply by
sign, and finite products are exact. -/
def efMul : EFloat → EFloat → EFloat
  | EFloat.nan, _ => EFloat.nan
  | _, EFloat.nan => EFloat.nan
  | EFloat.inf s, EFloat.inf t => EFloat.inf (s == t)
  | EFloat.inf s, EFloat.fin q =>
    if q = 0 then EFloat.nan else if 0 < q then EFloat.inf s else EFloat.inf (!s)
  | EFloat.fin q, EFloat.inf s =>
    if q = 0 then EFloat.nan else if 0 < q then EFloat.inf s else EFloat.inf (!s)
  | EFloat.fin a, EFloat.fin b => EFloat.fin (a * b)

/-- Largest `usize` value on the 64-bit targets the program runs on. -/
def USIZE_MAX : ℕ := 2 ^ 64 - 1

/-- Rust's saturating `f64 as usize` cast: NaN and everything below zero
collapse to `0`, `+inf` and everything above `usize::MAX` collapse to
`usize::MAX`, and in-range values truncate toward zero. -/
def efToUsize : EFloat → ℕ
  | EFloat.nan => 0
  | EFloat.inf true => USIZE_MAX
  | EFloat.inf false => 0
  | EFloat.fin q => min (Int.toNat ⌊q⌋) USIZE_MAX

/-- Model of `Renderer::calculate_leds` (`src/main.rs:643-647`) over the
`EFloat` domain, keeping the IEEE special cases explicit (claim C10). -/
def calculate_leds_f64 (bandwidth_kbps max_bandwidth_kbps : EFloat)
    (leds_per_direction : ℕ) : ℕ :=
  min (efToUsize (efMul (efDiv bandwidth_kbps max_bandwidth_kbps)
      (EFloat.fin (leds_per_direction : ℚ)))) leds_per_direction

/-- Claim C2: for every `bandwidth_kbps >= 0`, `max_bandwidth_kbps > 0` and
every `leds_per_direction`, `calculate_leds` equals
`min(floor((bandwidth / max) * leds_per_direction), leds_per_direction)`,
is monotonic in the bandwidth, lies in `[0, leds_per_direction]` (the lower
bound is inherent in `ℕ`), and saturates at `leds_per_direction` whenever
`bandwidth >= max`. -/
theorem C2_calculate_leds_spec (bw bw2 mx : ℚ) (lpd : ℕ)
    (hbw : 0 ≤ bw) (hmx : 0 < mx) :
    (calculate_leds bw mx lpd : ℤ) = min ⌊bw / mx * (lpd : ℚ)⌋ (lpd : ℤ) ∧
    (bw ≤ bw2 → calculate_leds bw mx lpd ≤ calculate_leds bw2 mx lpd) ∧
    calculate_leds bw mx lpd ≤ lpd ∧
    (mx ≤ bw → calculate_leds bw mx lpd = lpd) := by
  have hquot : 0 ≤ bw / mx := div_nonneg hbw hmx.le
  have hprod : 0 ≤ bw / mx * (lpd : ℚ) := mul_nonneg hquot (Nat.cast_nonneg lpd)
  have hfloor : 0 ≤ ⌊bw / mx * (lpd : ℚ)⌋ := Int.floor_nonneg.mpr hprod
  refine ⟨?_, ?_, min_le_right _ _, ?_⟩
  · unfold calculate_leds
    rw [Nat.cast_min, Int.toNat_of_nonneg hfloor]
  · intro hle
    have h1 : bw / mx ≤ bw2 / mx := by
      exact div_le_div_of_nonneg_right hle hmx.le
    have h2 : bw / mx * (lpd : ℚ) ≤ bw2 / mx * (lpd : ℚ) :=
      mul_le_mul_of_nonneg_right h1 (Nat.cast_nonneg lpd)
    exact min_le_min (Int.toNat_le_toNat (Int.floor_le_floor h2)) le_rfl
  · intro hge
    have h1 : (1 : ℚ) ≤ bw / mx := (one_le_div hmx).mpr hge
    have h2 : (lpd : ℚ) ≤ bw / mx * (lpd : ℚ) :=
      le_mul_of_one_le_left (Nat.cast_nonneg lpd) h1
    have h3 : (lpd : ℤ) ≤ ⌊bw / mx * (lpd : ℚ)⌋ := by
      rw [Int.le_floor]
      exact_mod_cast h2
    have h4 : lpd ≤ Int.toNat ⌊bw / mx * (lpd : ℚ)⌋ :=
      (Int.le_toNat hfloor).mpr h3
    exact min_eq_right h4

/-- Witness for C2 at `bandwidth = 5`, `bandwidth2 = 12`, `max = 10`,
`leds_per_direction = 20`. -/
theorem C2_witness :
    (calculate_leds 5 10 20 : ℤ) = min ⌊(5 : ℚ) / 10 * ((20 : ℕ) : ℚ)⌋ ((20 : ℕ) : ℤ) ∧
    ((5 : ℚ) ≤ 12 → calculate_leds 5 10 20 ≤ calculate_leds 12 10 20) ∧
    calculate_leds 5 10 20 ≤ 20 ∧
    ((10 : ℚ) ≤ 5 → calculate_leds 5 10 20 = 20) :=
  C2_calculate_leds_spec 5 12 10 20 (by norm_num) (by norm_num)

/-- Claim C3: on a tick where a last-update timestamp exists, the displayed
bandwidth is `start + (current - start) * t` with
`t = min(elapsed / interpolation_time, 1)`; for `elapsed >= 0` and
`interpolation_time > 0` the factor `t` lies in `[0, 1]`, at `t = 0` the
displayed value is `start`, at `t = 1` it is `current`; with no timestamp
the displayed value is `current`. -/
theorem C3_bandwidth_interpolation (elapsed interp start cur : ℚ)
    (he : 0 ≤ elapsed) (hi : 0 < interp) :
    (0 ≤ min (elapsed / interp) 1 ∧ min (elapsed / interp) 1 ≤ 1) ∧
    interpolate_bandwidth (some elapsed) interp start cur
      = start + (cur - start) * min (elapsed / interp) 1 ∧
    (min (elapsed / interp) 1 = 0 →
      interpolate_bandwidth (some elapsed) interp start cur = start) ∧
    (min (elapsed / interp) 1 = 1 →
      interpolate_bandwidth (some elapsed) interp start cur = cur) ∧
    interpolate_bandwidth none interp start cur = cur := by
  refine ⟨⟨le_min (div_nonneg he hi.le) zero_le_one, min_le_right _ _⟩, rfl, ?_, ?_, rfl⟩
  · intro h0
    show start + (cur - start) * min (elapsed / interp) 1 = start
    rw [h0]
    ring
  · intro h1
    show start + (cur - start) * min (elapsed / interp) 1 = cur
    rw [h1]
    ring

/-- Witness for C3 at `elapsed = 5`, `interpolation_time = 10`,
`start = 2`, `current = 8`. -/
theorem C3_witness :
    (0 ≤ min ((5 : ℚ) / 10) 1 ∧ min ((5 : ℚ) / 10) 1 ≤ 1) ∧
    interpolate_bandwidth (some 5) 10 2 8
      = 2 + (8 - 2) * min ((5 : ℚ) / 10) 1 ∧
    (min ((5 : ℚ) / 10) 1 = 0 → interpolate_bandwidth (some 5) 10 2 8 = 2) ∧
    (min ((5 : ℚ) / 10) 1 = 1 → interpolate_bandwidth (some 5) 10 2 8 = 8) ∧
    interpolate_bandwidth none 10 2 8 = 8 :=
  C3_bandwidth_interpolation 5 10 2 8 (by norm_num) (by norm_num)

/-- Counterexample to C4 as stated: the source truncates the float to
`usize` (`as usize`), it does not round it.  At `total_leds = 10`,
`rx_split_percent = 25` the product is `2.5`: the source yields `2`, the
claimed `round` formula yields `3`. -/
theorem C4_counterexample :
    rx_leds_available 10 25 = 2 ∧ rx_leds_available_specRound 10 25 = 3 ∧
    rx_leds_available 10 25 ≠ rx_leds_available_specRound 10 25 := by
  have hclamp : clamped_rx_split 25 = 25 := by
    unfold clamped_rx_split
    rw [max_eq_left (by norm_num), min_eq_left (by norm_num)]
  have hval : (10 : ℚ) * clamped_rx_split 25 / 100 = 5 / 2 := by
    rw [hclamp]; norm_num
  have hfloor : ⌊(5 / 2 : ℚ)⌋ = 2 := by norm_num [Int.floor_eq_iff]
  have hround : round ((5 / 2 : ℚ)) = 3 := by norm_num [round_eq, Int.floor_eq_iff]
  have ha : rx_leds_available 10 25 = 2 := by
    unfold rx_leds_available
    norm_num [hval, hfloor]
    decide
  have hb : rx_leds_available_specRound 10 25 = 3 := by
    unfold rx_leds_available_specRound
    norm_num [hval, hround]
    decide
  exact ⟨ha, hb, by omega⟩

/-- Claim C4 as amended: on every tick the split percentage is clamped
into `[0, 100]` at the point of use, the rx budget is
`floor(total_leds * clamped_percent / 100)` (float truncation, not
rounding), the tx budget is the remainder, and the two budgets always sum
to `total_leds`. -/
theorem C4_amended_split (total_leds : ℕ) (p : ℚ) :
    0 ≤ clamped_rx_split p ∧ clamped_rx_split p ≤ 100 ∧
    rx_leds_available total_leds p
      = Int.toNat ⌊(total_leds : ℚ) * clamped_rx_split p / 100⌋ ∧
    rx_leds_available total_leds p + tx_leds_available total_leds p = total_leds := by
  have h0 : 0 ≤ clamped_rx_split p := le_min (le_max_right p 0) (by norm_num)
  have h100 : clamped_rx_split p ≤ 100 := min_le_right _ _
  refine ⟨h0, h100, rfl, ?_⟩
  have h1 : (total_leds : ℚ) * clamped_rx_split p / 100 ≤ (total_leds : ℚ) := by
    rw [mul_div_assoc]
    exact mul_le_of_le_one_right (Nat.cast_nonneg _)
      ((div_le_one (by norm_num)).mpr h100)
  have h2 : ⌊(total_leds : ℚ) * clamped_rx_split p / 100⌋ ≤ (total_leds : ℤ) := by
    calc ⌊(total_leds : ℚ) * clamped_rx_split p / 100⌋
        ≤ ⌊(total_leds : ℚ)⌋ := Int.floor_le_floor h1
      _ = (total_leds : ℤ) := Int.floor_natCast _
  have h3 : rx_leds_available total_leds p ≤ total_leds := by
    unfold rx_leds_available
    exact Int.toNat_le.mpr h2
  unfold tx_leds_available
  omega

/-- Claim C10: `calculate_leds` is total over all `f64` inputs and always
returns a value in `[0, leds_per_direction]` (for any `usize`-sized
`leds_per_direction`); a NaN or negative utilization yields `0`, negative
infinity yields `0`, and positive infinity yields `leds_per_direction`
after the final `min`, because the `as usize` cast saturates. -/
theorem C10_calculate_leds_total (bw mx : EFloat) (lpd : ℕ)
    (hlpd : lpd ≤ USIZE_MAX) :
    calculate_leds_f64 bw mx lpd ≤ lpd ∧
    (efDiv bw mx = EFloat.nan → calculate_leds_f64 bw mx lpd = 0) ∧
    (∀ q : ℚ, q < 0 → efDiv bw mx = EFloat.fin q → calculate_leds_f64 bw mx lpd = 0) ∧
    (efDiv bw mx = EFloat.inf false → calculate_leds_f64 bw mx lpd = 0) ∧
    (efDiv bw mx = EFloat.inf true → calculate_leds_f64 bw mx lpd = lpd) := by
  refine ⟨min_le_right _ _, ?_, ?_, ?_, ?_⟩
  · intro h
    unfold calculate_leds_f64
    rw [h]
    simp [efMul, efToUsize]
  · intro q hq h
    unfold calculate_leds_f64
    rw [h]
    have hprod : q * (lpd : ℚ) ≤ 0 :=
      mul_nonpos_iff.mpr (Or.inr ⟨hq.le, Nat.cast_nonneg lpd⟩)
    have hfloor : ⌊q * (lpd : ℚ)⌋ ≤ 0 := by
      calc ⌊q * (lpd : ℚ)⌋ ≤ ⌊(0 : ℚ)⌋ := Int.floor_le_floor hprod
        _ = 0 := Int.floor_zero
    simp [efMul, efToUsize, Int.toNat_of_nonpos hfloor]
  · intro h
    unfold calculate_leds_f64
    rw [h]
    rcases Nat.eq_zero_or_pos lpd with h0 | h0
    · subst h0
      simp [efMul, efToUsize]
    · have hne : ((lpd : ℚ)) ≠ 0 := Nat.cast_ne_zero.mpr (by omega)
      have hpos : (0 : ℚ) < (lpd : ℚ) := by exact_mod_cast h0
      simp [efMul, efToUsize, hne, hpos]
  · intro h
    unfold calculate_leds_f64
    rw [h]
    rcases Nat.eq_zero_or_pos lpd with h0 | h0
    · subst h0
      simp [efMul, efToUsize]
    · have hne : ((lpd : ℚ)) ≠ 0 := Nat.cast_ne_zero.mpr (by omega)
      have hpos : (0 : ℚ) < (lpd : ℚ) := by exact_mod_cast h0
      simp [efMul, efToUsize, hne, hpos, min_eq_right hlpd]

/-- Witness for C10 at `bandwidth = NaN`, `max = 1.0`,
`leds_per_direction = 5`. -/
theorem C10_witness :
    calculate_leds_f64 EFloat.nan (EFloat.fin 1) 5 ≤ 5 ∧
    calculate_leds_f64 EFloat.nan (EFloat.fin 1) 5 = 0 :=
  ⟨(C10_calculate_leds_total EFloat.nan (EFloat.fin 1) 5 (by norm_num [USIZE_MAX])).1,
   (C10_calculate_leds_total EFloat.nan (EFloat.fin 1) 5 (by norm_num [USIZE_MAX])).2.1 rfl⟩

/-- Claim C8: when the snapshot generation equals the cached generation,
`rebuild_gradients_if_needed` leaves the whole cache unchanged and does
not rebuild; a run that did rebuild can only have happened because the two
generation values differ. -/
theorem C8_cache_reuse (state : GradientConfig) (cache : RendererCache) :
    (state.generation = cache.last_generation →
      rebuild_gradients_if_needed state cache = some (cache, false)) ∧
    (∀ cache2 : RendererCache,
      rebuild_gradients_if_needed state cache = some (cache2, true) →
      state.generation ≠ cache.last_generation) := by
  constructor
  · intro h
    simp [rebuild_gradients_if_needed, h]
  · intro cache2 hres heq
    rw [rebuild_gradients_if_needed, if_neg (by simp [heq])] at hres
    simp at hres

/-- Witness for C8: a concrete snapshot and cache agreeing on generation
`7` are returned unchanged with no rebuild. -/
theorem C8_witness :
    rebuild_gradients_if_needed
      { tx_color := [], rx_color := [], use_gradient := false,
        interpolation_mode := InterpolationMode.Linear, generation := 7 }
      { tx_gradient := none, rx_gradient := none, tx_colors := [],
        rx_colors := [], tx_solid_color := ⟨0, 0, 0⟩,
        rx_solid_color := ⟨0, 0, 0⟩, last_generation := 7 }
      = some ({ tx_gradient := none, rx_gradient := none, tx_colors := [],
                rx_colors := [], tx_solid_color := ⟨0, 0, 0⟩,
                rx_solid_color := ⟨0, 0, 0⟩, last_generation := 7 }, false) :=
  (C8_cache_reuse
      { tx_color := [], rx_color := [], use_gradient := false,
        interpolation_mode := InterpolationMode.Linear, generation := 7 }
      { tx_gradient := none, rx_gradient := none, tx_colors := [],
        rx_colors := [], tx_solid_color := ⟨0, 0, 0⟩,
        rx_solid_color := ⟨0, 0, 0⟩, last_generation := 7 }).1 rfl

/-- Two lists of naturals separated by a bound are disjoint. -/
theorem disjoint_of_sep {l1 l2 : List ℕ} {b : ℕ}
    (h1 : ∀ x ∈ l1, x < b) (h2 : ∀ x ∈ l2, b ≤ x) : l1.Disjoint l2 :=
  fun a ha1 ha2 => absurd (h2 a ha2) (not_le.mpr (h1 a ha1))

/-- Elements of the counting-down first-half pattern lie below the half
boundary (when the count fits in the first half). -/
theorem mem_downFrom_lt {half f : ℕ} (hf : f ≤ half) :
    ∀ x ∈ (List.range f).map (fun i => half - 1 - i), x < half := by
  intro x hx
  simp only [List.mem_map, List.mem_range] at hx
  obtain ⟨i, hi, rfl⟩ := hx
  omega

/-- Elements of the counting-up-from-zero pattern lie below the half
boundary (when the count fits in the first half). -/
theorem mem_range_lt {half f : ℕ} (hf : f ≤ half) :
    ∀ x ∈ List.range f, x < half := by
  intro x hx
  simp only [List.mem_range] at hx
  omega

/-- Elements of the counting-up-from-the-boundary pattern lie at or above
the half boundary. -/
theorem mem_upFrom_ge (half s : ℕ) :
    ∀ x ∈ (List.range s).map (fun i => half + i), half ≤ x := by
  intro x hx
  simp only [List.mem_map, List.mem_range] at hx
  obtain ⟨i, hi, rfl⟩ := hx
  omega

/-- Elements of the counting-down-from-the-end pattern lie at or above the
half boundary (when the count fits in the second half). -/
theorem mem_fromEnd_ge {total half s : ℕ} (hs : s ≤ total - half) :
    ∀ x ∈ (List.range s).map (fun i => total - 1 - i), half ≤ x := by
  intro x hx
  simp only [List.mem_map, List.mem_range] at hx
  obtain ⟨i, hi, rfl⟩ := hx
  omega

/-- Counterexample to C1 as stated: with `total_leds = 10`
(`leds_per_direction = 5`), `Right` mode, `swap = false`, `tx_leds = 3`,
`rx_leds = 7` we have `tx_leds + rx_leds ≤ total_leds`, yet the returned
tx positions `[5, 6, 7]` and rx positions `[0, …, 6]` share LEDs 5 and 6:
the sequences are not disjoint. -/
theorem C1_counterexample :
    3 + 7 ≤ 10 ∧
    (calculate_led_positions 3 7 DirectionMode.Right false 10 (10 / 2)).1 = [5, 6, 7] ∧
    (calculate_led_positions 3 7 DirectionMode.Right false 10 (10 / 2)).2
      = [0, 1, 2, 3, 4, 5, 6] ∧
    ¬ List.Disjoint (calculate_led_positions 3 7 DirectionMode.Right false 10 (10 / 2)).1
        (calculate_led_positions 3 7 DirectionMode.Right false 10 (10 / 2)).2 := by
  refine ⟨by norm_num, by decide, by decide, fun h => ?_⟩
  exact h (a := 5) (by decide) (by decide)

/-- Claim C1 as amended: with the per-direction counts each bounded by
`total_leds / 2` (rather than only their sum bounded by `total_leds`),
`calculate_led_positions` returns a tx sequence of length `tx_leds`, an rx
sequence of length `rx_leds`, and the two sequences are disjoint, for
every direction mode and swap flag. -/
theorem C1_amended_positions (tx_leds rx_leds : ℕ) (direction : DirectionMode)
    (swap : Bool) (total_leds : ℕ)
    (htx : tx_leds ≤ total_leds / 2) (hrx : rx_leds ≤ total_leds / 2) :
    (calculate_led_positions tx_leds rx_leds direction swap total_leds
      (total_leds / 2)).1.length = tx_leds ∧
    (calculate_led_positions tx_leds rx_leds direction swap total_leds
      (total_leds / 2)).2.length = rx_leds ∧
    List.Disjoint
      (calculate_led_positions tx_leds rx_leds direction swap total_leds
        (total_leds / 2)).1
      (calculate_led_positions tx_leds rx_leds direction swap total_leds
        (total_leds / 2)).2 := by
  have htx2 : tx_leds ≤ total_leds - total_leds / 2 := by omega
  have hrx2 : rx_leds ≤ total_leds - total_leds / 2 := by omega
  cases swap with
  | false =>
    cases direction with
    | Mirrored =>
      refine ⟨by simp [calculate_led_positions], by simp [calculate_led_positions], ?_⟩
      exact (disjoint_of_sep (mem_downFrom_lt hrx) (mem_upFrom_ge _ _)).symm
    | Opposing =>
      refine ⟨by simp [calculate_led_positions], by simp [calculate_led_positions], ?_⟩
      exact (disjoint_of_sep (mem_range_lt hrx) (mem_fromEnd_ge htx2)).symm
    | Left =>
      refine ⟨by simp [calculate_led_positions], by simp [calculate_led_positions], ?_⟩
      exact (disjoint_of_sep (mem_downFrom_lt hrx) (mem_fromEnd_ge htx2)).symm
    | Right =>
      refine ⟨by simp [calculate_led_positions], by simp [calculate_led_positions], ?_⟩
      exact (disjoint_of_sep (mem_range_lt hrx) (mem_upFrom_ge _ _)).symm
  | true =>
    cases direction with
    | Mirrored =>
      refine ⟨by simp [calculate_led_positions], by simp [calculate_led_positions], ?_⟩
      exact disjoint_of_sep (mem_downFrom_lt htx) (mem_upFrom_ge _ _)
    | Opposing =>
      refine ⟨by simp [calculate_led_positions], by simp [calculate_led_positions], ?_⟩
      exact disjoint_of_sep (mem_range_lt htx) (mem_fromEnd_ge hrx2)
    | Left =>
      refine ⟨by simp [calculate_led_positions], by simp [calculate_led_positions], ?_⟩
      exact disjoint_of_sep (mem_downFrom_lt htx) (mem_fromEnd_ge hrx2)
    | Right =>
      refine ⟨by simp [calculate_led_positions], by simp [calculate_led_positions], ?_⟩
      exact disjoint_of_sep (mem_range_lt htx) (mem_upFrom_ge _ _)

/-- Witness for the amended C1 at `tx_leds = 3`, `rx_leds = 4`,
`Mirrored`, no swap, `total_leds = 10`. -/
theorem C1_witness :
    (calculate_led_positions 3 4 DirectionMode.Mirrored false 10
      (10 / 2)).1.length = 3 ∧
    (calculate_led_positions 3 4 DirectionMode.Mirrored false 10
      (10 / 2)).2.length = 4 ∧
    List.Disjoint
      (calculate_led_positions 3 4 DirectionMode.Mirrored false 10 (10 / 2)).1
      (calculate_led_positions 3 4 DirectionMode.Mirrored false 10 (10 / 2)).2 :=
  C1_amended_positions 3 4 DirectionMode.Mirrored false 10 (by norm_num) (by norm_num)

/-- Counterexample to C7 as stated: at `strobe_rate_hz = 3`,
`strobe_duration_ms = 100`, epoch time `333` ms, with both directions
fully lit, the claimed window (offset into the cycle of length `1000/3`
ms falling in its trailing `100` ms) is satisfied, yet the source does not
strobe: it works on the cycle truncated to whole milliseconds
(`(1000.0 / 3.0) as u128 = 333`), so `333 % 333 = 0` falls outside the
trailing window `[233, 333)`. -/
theorem C7_counterexample :
    strobe_flags true 3 100 333 10 10 10 10 = some (false, false) ∧
    claimStrobeWindow 3 100 333 := by
  constructor
  · have hcycle : Int.toNat ⌊(1000 : ℚ) / 3⌋ = 333 := by
      have h : ⌊(1000 : ℚ) / 3⌋ = 333 := by norm_num [Int.floor_eq_iff]
      rw [h]
      rfl
    have hdur : Int.toNat ⌊(100 : ℚ)⌋ = 100 := by
      have h : ⌊(100 : ℚ)⌋ = 100 := by norm_num
      rw [h]
      rfl
    rw [strobe_flags, if_pos (by norm_num)]
    rw [if_neg (by rw [hcycle]; omega)]
    simp only [hcycle, hdur]
    norm_num
  · unfold claimStrobeWindow
    push_cast
    rw [show ⌊(333 : ℚ) / (1000 / 3)⌋ = 0 from by norm_num [Int.floor_eq_iff]]
    norm_num

/-- Claim C7 as amended: when strobing is enabled and `0 < rate ≤ 1000 Hz`
(so that the whole-millisecond cycle `floor(1000/rate)` is at least 1 and
the modulo does not panic), a direction strobes if and only if its lit
count equals its available budget (the source tests `leds >= available`,
equivalent because `calculate_leds` never exceeds the budget) and the
epoch time in whole ms, reduced modulo the truncated cycle, falls within
the trailing `min(floor(duration_ms), cycle)` milliseconds of that
truncated cycle; when strobing is disabled or the rate is not positive, no
segment strobes. -/
theorem C7_amended_strobe (som : Bool) (rate dur : ℚ)
    (now rxl rxa txl txa : ℕ) (hrx : rxl ≤ rxa) (htx : txl ≤ txa) :
    (som = true → 0 < rate → 1 ≤ Int.toNat ⌊1000 / rate⌋ →
      strobe_flags som rate dur now rxl rxa txl txa =
        some (decide (rxl = rxa) &&
                decide (Int.toNat ⌊1000 / rate⌋ -
                    min (Int.toNat ⌊dur⌋) (Int.toNat ⌊1000 / rate⌋)
                  ≤ now % Int.toNat ⌊1000 / rate⌋),
              decide (txl = txa) &&
                decide (Int.toNat ⌊1000 / rate⌋ -
                    min (Int.toNat ⌊dur⌋) (Int.toNat ⌊1000 / rate⌋)
                  ≤ now % Int.toNat ⌊1000 / rate⌋))) ∧
    ((som = false ∨ rate ≤ 0) →
      strobe_flags som rate dur now rxl rxa txl txa = some (false, false)) := by
  constructor
  · intro hsom hrate hcyc
    have hrxd : decide (rxa ≤ rxl) = decide (rxl = rxa) :=
      decide_eq_decide.mpr ⟨fun h => Nat.le_antisymm hrx h, fun h => h ▸ le_rfl⟩
    have htxd : decide (txa ≤ txl) = decide (txl = txa) :=
      decide_eq_decide.mpr ⟨fun h => Nat.le_antisymm htx h, fun h => h ▸ le_rfl⟩
    rw [strobe_flags, if_pos ⟨hsom, hrate⟩]
    rw [if_neg (by omega)]
    rw [hrxd, htxd]
  · rintro (h | h)
    · subst h
      simp [strobe_flags]
    · rw [strobe_flags, if_neg (by simp [not_lt.mpr h])]

/-- Witness for the amended C7 at `rate = 2 Hz` (cycle 500 ms),
`duration = 100 ms`, epoch time `950` ms, rx fully lit, tx not. -/
theorem C7_witness :
    strobe_flags true 2 100 950 10 10 5 10 =
      some (decide ((10 : ℕ) = 10) &&
              decide (Int.toNat ⌊(1000 : ℚ) / 2⌋ -
                  min (Int.toNat ⌊(100 : ℚ)⌋) (Int.toNat ⌊(1000 : ℚ) / 2⌋)
                ≤ 950 % Int.toNat ⌊(1000 : ℚ) / 2⌋),
            decide ((5 : ℕ) = 10) &&
              decide (Int.toNat ⌊(1000 : ℚ) / 2⌋ -
                  min (Int.toNat ⌊(100 : ℚ)⌋) (Int.toNat ⌊(1000 : ℚ) / 2⌋)
                ≤ 950 % Int.toNat ⌊(1000 : ℚ) / 2⌋)) :=
  (C7_amended_strobe true 2 100 950 10 10 5 10 le_rfl (by norm_num)).1 rfl
    (by norm_num)
    (by
      have h : ⌊(1000 : ℚ) / 2⌋ = 500 := by norm_num [Int.floor_eq_iff]
      rw [h]
      decide)

/-- Declarative acceptance condition for one two-character group of
`Rgb::from_hex`: two hex digits, or (because Rust's `from_str_radix`
accepts a leading sign) a `+` followed by one hex digit. -/
def validByteGroup (c1 c2 : Char) : Prop :=
  ((hexDigitVal? c1).isSome = true ∧ (hexDigitVal? c2).isSome = true) ∨
    (c1 = '+' ∧ (hexDigitVal? c2).isSome = true)

instance (c1 c2 : Char) : Decidable (validByteGroup c1 c2) := by
  unfold validByteGroup
  infer_instance

/-- The group parser succeeds exactly on valid groups. -/
theorem parseByte_isSome_iff (c1 c2 : Char) :
    (parseByte c1 c2).isSome = true ↔ validByteGroup c1 c2 := by
  unfold parseByte validByteGroup
  by_cases h : c1 = '+'
  · subst h
    have h0 : hexDigitVal? '+' = none := by decide
    simp [h0]
  · simp only [if_neg h]
    cases h1 : hexDigitVal? c1 <;> cases h2 : hexDigitVal? c2 <;> simp [h, h1, h2]

/-- Counterexample to C9 as stated: the entry `"+1+1+1"` has length 6 and
contains `+`, which is not a hex digit, yet `from_hex` succeeds (returning
channels `(1, 1, 1)`), because Rust's `u8::from_str_radix` accepts a
leading `+` sign in each two-character group. -/
theorem C9_counterexample :
    from_hex ['+', '1', '+', '1', '+', '1'] = some ⟨1, 1, 1⟩ ∧
    hexDigitVal? '+' = none ∧
    '+' ∈ ['+', '1', '+', '1', '+', '1'] ∧
    (['+', '1', '+', '1', '+', '1'] : List Char).length = 6 := by
  refine ⟨by decide, by decide, by decide, by decide⟩

/-- Claim C9 as amended: `Rgb::from_hex` succeeds if and only if, after
stripping every leading `#`, exactly six characters remain and each of the
three two-character groups is either two hex digits or a `+` followed by a
hex digit; on success the three channels are the values parsed from the
three groups. -/
theorem C9_amended_from_hex (s : List Char) :
    ((from_hex s).isSome = true ↔
      ∃ c1 c2 c3 c4 c5 c6, s.dropWhile (fun c => c = '#') = [c1, c2, c3, c4, c5, c6] ∧
        validByteGroup c1 c2 ∧ validByteGroup c3 c4 ∧ validByteGroup c5 c6) ∧
    (∀ rgb : Rgb, from_hex s = some rgb →
      ∃ c1 c2 c3 c4 c5 c6, s.dropWhile (fun c => c = '#') = [c1, c2, c3, c4, c5, c6] ∧
        parseByte c1 c2 = some rgb.r ∧ parseByte c3 c4 = some rgb.g ∧
        parseByte c5 c6 = some rgb.b) := by
  rcases hd : s.dropWhile (fun c => c = '#') with
    _ | ⟨a, _ | ⟨b, _ | ⟨c, _ | ⟨d, _ | ⟨e, _ | ⟨f, _ | ⟨g, t⟩⟩⟩⟩⟩⟩⟩
  case nil => constructor <;> simp [from_hex, hd]
  case cons.nil => constructor <;> simp [from_hex, hd]
  case cons.cons.nil => constructor <;> simp [from_hex, hd]
  case cons.cons.cons.nil => constructor <;> simp [from_hex, hd]
  case cons.cons.cons.cons.nil => constructor <;> simp [from_hex, hd]
  case cons.cons.cons.cons.cons.nil => constructor <;> simp [from_hex, hd]
  case cons.cons.cons.cons.cons.cons.cons =>
    constructor <;> simp [from_hex, hd]
  case cons.cons.cons.cons.cons.cons.nil =>
    have hiff : (match parseByte a b, parseByte c d, parseByte e f with
         | some r, some g, some bb => some (⟨r, g, bb⟩ : Rgb)
         | _, _, _ => none).isSome = true ↔
        ((parseByte a b).isSome = true ∧ (parseByte c d).isSome = true ∧
          (parseByte e f).isSome = true) := by
      cases parseByte a b <;> cases parseByte c d <;> cases parseByte e f <;> simp
    constructor
    · rw [show from_hex s =
          (match parseByte a b, parseByte c d, parseByte e f with
           | some r, some g, some bb => some (⟨r, g, bb⟩ : Rgb)
           | _, _, _ => none) from by rw [from_hex, hd]]
      rw [hiff]
      constructor
      · rintro ⟨h1, h2, h3⟩
        exact ⟨a, b, c, d, e, f, rfl, (parseByte_isSome_iff a b).mp h1,
          (parseByte_isSome_iff c d).mp h2, (parseByte_isSome_iff e f).mp h3⟩
      · rintro ⟨c1, c2, c3, c4, c5, c6, hlist, hv1, hv2, hv3⟩
        simp only [List.cons.injEq, and_true] at hlist
        obtain ⟨rfl, rfl, rfl, rfl, rfl, rfl⟩ := hlist
        exact ⟨(parseByte_isSome_iff a b).mpr hv1, (parseByte_isSome_iff c d).mpr hv2,
          (parseByte_isSome_iff e f).mpr hv3⟩
    · intro rgb hr
      rw [show from_hex s =
          (match parseByte a b, parseByte c d, parseByte e f with
           | some r, some g, some bb => some (⟨r, g, bb⟩ : Rgb)
           | _, _, _ => none) from by rw [from_hex, hd]] at hr
      cases h1 : parseByte a b <;> rw [h1] at hr <;>
        cases h2 : parseByte c d <;> rw [h2] at hr <;>
        cases h3 : parseByte e f <;> rw [h3] at hr <;> simp at hr
      obtain ⟨rfl⟩ := hr
      exact ⟨a, b, c, d, e, f, rfl, h1, h2, h3⟩

/-- Witness for the amended C9: `"#ff0000"` parses (length 7 before the
`#` strip, 6 valid groups after). -/
theorem C9_witness :
    (from_hex (String.toList "#ff0000")).isSome = true :=
  (C9_amended_from_hex (String.toList "#ff0000")).1.mpr
    ⟨'f', 'f', '0', '0', '0', '0', by decide, by decide, by decide, by decide⟩

/-- Positivity of the segment size for a nonempty color list. -/
theorem segmentSize_pos {n : ℕ} (hn : 1 ≤ n) : 0 < segmentSize n := by
  unfold segmentSize
  have h : (0 : ℚ) < n := by exact_mod_cast hn
  exact div_pos one_pos h

/-- Positivity of the transition size for a nonempty color list. -/
theorem transitionSize_pos {n : ℕ} (hn : 1 ≤ n) : 0 < transitionSize n := by
  unfold transitionSize
  have := segmentSize_pos hn
  nlinarith

/-- The transition is never wider than the segment. -/
theorem transitionSize_le_seg {n : ℕ} (hn : 1 ≤ n) :
    transitionSize n ≤ segmentSize n := by
  unfold transitionSize
  have := segmentSize_pos hn
  nlinarith

/-- A plateau starts before it ends. -/
theorem plateauStart_le_plateauEnd {n : ℕ} (hn : 1 ≤ n) (i : ℕ) :
    plateauStart n i ≤ plateauEnd n i := by
  unfold plateauStart plateauEnd transitionSize
  have hs := (segmentSize_pos hn).le
  nlinarith

/-- A plateau ends before the next one starts. -/
theorem plateauEnd_le_plateauStart_succ {n : ℕ} (hn : 1 ≤ n) (i : ℕ) :
    plateauEnd n i ≤ plateauStart n (i + 1) := by
  unfold plateauStart plateauEnd transitionSize
  have hs := (segmentSize_pos hn).le
  push_cast
  nlinarith

/-- Plateau starts are monotone in the color index. -/
theorem plateauStart_mono {n : ℕ} (hn : 1 ≤ n) {i j : ℕ} (hij : i ≤ j) :
    plateauStart n i ≤ plateauStart n j := by
  unfold plateauStart
  have hs := (segmentSize_pos hn).le
  have hc : (i : ℚ) ≤ (j : ℚ) := by exact_mod_cast hij
  nlinarith

/-- Every plateau end before the last color is bounded by the last plateau
start. -/
theorem plateauEnd_le_last {n : ℕ} (hn : 1 ≤ n) {i : ℕ} (hi : i < n - 1) :
    plateauEnd n i ≤ plateauStart n (n - 1) := by
  unfold plateauStart plateauEnd
  have hs := (segmentSize_pos hn).le
  have htr := (transitionSize_pos hn).le
  have h1 : ((i : ℚ) + 1) ≤ ((n - 1 : ℕ) : ℚ) := by
    exact_mod_cast (by omega : i + 1 ≤ n - 1)
  have h2 := mul_le_mul_of_nonneg_right h1 hs
  linarith

/-- The last plateau start stays below the cyclic tail stop `1 -
transition_size`. -/
theorem plateauStart_last_le {n : ℕ} (hn : 2 ≤ n) :
    plateauStart n (n - 1) ≤ 1 - transitionSize n := by
  have hn0 : (0 : ℚ) < n := by exact_mod_cast (by omega : 0 < n)
  have hcast : ((n - 1 : ℕ) : ℚ) = (n : ℚ) - 1 := by
    push_cast [Nat.cast_sub (by omega : 1 ≤ n)]
    ring
  unfold plateauStart transitionSize segmentSize
  rw [hcast]
  have h3 : ((n : ℚ) - 1) * (1 / n) = 1 - 1 / n := by
    field_simp
  rw [h3]
  have hinv : (0 : ℚ) < 1 / n := by positivity
  linarith

/-- Every plateau start is nonnegative. -/
theorem plateauStart_nonneg {n : ℕ} (hn : 1 ≤ n) (i : ℕ) :
    0 ≤ plateauStart n i := by
  unfold plateauStart
  have hs := (segmentSize_pos hn).le
  have htr := (transitionSize_pos hn).le
  have hi : (0 : ℚ) ≤ (i : ℚ) := Nat.cast_nonneg i
  nlinarith

/-- Length of the loop-generated stops, for loop indices past the first
color: the iteration at the final index pushes one stop, every earlier one
pushes two. -/
theorem stopsBody_length (n : ℕ) (cs : List Rgb) :
    ∀ i : ℕ, 1 ≤ i → i + cs.length = n → cs ≠ [] →
      (stopsBody n i cs).length = 2 * cs.length - 1 := by
  induction cs with
  | nil => intro i _ _ h; exact absurd rfl h
  | cons c rest ih =>
    intro i h1 h2 _
    simp only [List.length_cons] at h2
    by_cases hr : rest = []
    · subst hr
      have hi0 : ¬ i = 0 := by omega
      have hin : ¬ i < n - 1 := by simp at h2 ⊢; omega
      simp [stopsBody, hi0, hin]
    · have hrl : 0 < rest.length := List.length_pos.mpr hr
      have hi0 : ¬ i = 0 := by omega
      have hin : i < n - 1 := by omega
      have hrec := ih (i + 1) (by omega) (by omega) hr
      simp [stopsBody, hi0, hin, hrec]
      omega

/-- Length of the full control-stop list: `2N + 1` for `N ≥ 2` colors
(`2N - 1` from the loop plus the two cyclic tail stops). -/
theorem gradientStops_length (colors : List Rgb) (h2 : 2 ≤ colors.length) :
    (gradientStops colors).length = 2 * colors.length + 1 := by
  cases colors with
  | nil => simp at h2
  | cons c rest =>
    have hrest : rest ≠ [] := by
      intro h
      subst h
      simp at h2
    have hrl : 0 < rest.length := List.length_pos.mpr hrest
    have hbody := stopsBody_length (rest.length + 1) rest 1 le_rfl (by omega) hrest
    unfold gradientStops
    simp only [List.length_cons]
    simp [stopsBody, hrl, hbody]
    omega

/-- The final control stop duplicates the first color at domain `1`. -/
theorem gradientStops_getLast (c0 : Rgb) (rest : List Rgb) :
    (gradientStops (c0 :: rest)).getLast? = some (from_rgba8 c0, 1) := by
  have h : gradientStops (c0 :: rest) =
      (stopsBody (c0 :: rest).length 0 (c0 :: rest) ++
        [(from_rgba8 c0, 1 - transitionSize (c0 :: rest).length)]) ++
        [(from_rgba8 c0, 1)] := by
    rw [List.append_assoc]
    rfl
  rw [h]
  exact List.getLast?_concat _

/-- Inversion of a successful gradient build: the gradient component is
`some` exactly when at least two colors parsed and `use_gradient` was set,
and then it is the plateaued cyclic stop list over the parsed palette. -/
theorem build_gradient_inv (spec : List Char) (ug : Bool)
    (mode : InterpolationMode) (g : Gradient) (palette : List Rgb) (solid : Rgb)
    (h : build_gradient_from_color spec ug mode = some (some g, palette, solid)) :
    g = ⟨gradientStops palette, mode⟩ ∧ 2 ≤ palette.length ∧ ug = true := by
  unfold build_gradient_from_color at h
  cases hm : ((splitOnComma spec).map trimChars).mapM from_hex with
  | none => rw [hm] at h; simp at h
  | some colors =>
    rw [hm] at h
    cases colors with
    | nil =>
      rw [show from_hex ("0099FF".toList) = some ⟨0, 153, 255⟩ from by decide] at h
      simp at h
    | cons c0 rest =>
      dsimp only [] at h
      by_cases hc : 2 ≤ (c0 :: rest).length ∧ ug = true
      · rw [if_pos hc] at h
        simp only [Option.some.injEq, Prod.mk.injEq] at h
        obtain ⟨hg, hp, _⟩ := h
        subst hp
        exact ⟨hg.symm, hc.1, hc.2⟩
      · rw [if_neg hc] at h
        simp at h

/-- Counterexample to C5 as stated: the two-color spec `"ff0000,00ff00"`
builds a gradient with `2N + 1 = 5` control stops, not `2N + 2 = 6`
(the loop emits no `plateau_end` stop for the final color). -/
theorem C5_counterexample :
    build_gradient_from_color (String.toList "ff0000,00ff00") true
        InterpolationMode.Linear
      = some (some ⟨gradientStops [⟨255, 0, 0⟩, ⟨0, 255, 0⟩], InterpolationMode.Linear⟩,
          [⟨255, 0, 0⟩, ⟨0, 255, 0⟩], ⟨255, 0, 0⟩) ∧
    (gradientStops [⟨255, 0, 0⟩, ⟨0, 255, 0⟩]).length = 5 ∧ 5 ≠ 2 * 2 + 2 := by
  refine ⟨rfl, by decide, by decide⟩

/-- Claim C5 as amended: for every color spec that parses into `N ≥ 2`
colors with `use_gradient = true`, the continuous curve is built from
exactly `2N + 1` control stops (not `2N + 2`), and the last control stop
duplicates the first input color at domain `1.0`. -/
theorem C5_amended_stops (spec : List Char) (mode : InterpolationMode)
    (g : Gradient) (palette : List Rgb) (solid : Rgb)
    (h : build_gradient_from_color spec true mode = some (some g, palette, solid)) :
    g.stops.length = 2 * palette.length + 1 ∧
    ∃ c0 rest, palette = c0 :: rest ∧
      g.stops.getLast? = some (from_rgba8 c0, 1) := by
  obtain ⟨hg, hlen, -⟩ := build_gradient_inv spec true mode g palette solid h
  subst hg
  cases palette with
  | nil => simp at hlen
  | cons c0 rest =>
    exact ⟨gradientStops_length _ hlen, c0, rest, rfl, gradientStops_getLast c0 rest⟩

/-- Witness for the amended C5 on the spec `"ff0000,00ff00"`. -/
theorem C5_witness :
    (Gradient.mk (gradientStops [⟨255, 0, 0⟩, ⟨0, 255, 0⟩])
        InterpolationMode.Linear).stops.length
      = 2 * ([⟨255, 0, 0⟩, ⟨0, 255, 0⟩] : List Rgb).length + 1 ∧
    ∃ c0 rest, ([⟨255, 0, 0⟩, ⟨0, 255, 0⟩] : List Rgb) = c0 :: rest ∧
      (Gradient.mk (gradientStops [⟨255, 0, 0⟩, ⟨0, 255, 0⟩])
          InterpolationMode.Linear).stops.getLast? = some (from_rgba8 c0, 1) :=
  C5_amended_stops (String.toList "ff0000,00ff00") InterpolationMode.Linear
    ⟨gradientStops [⟨255, 0, 0⟩, ⟨0, 255, 0⟩], InterpolationMode.Linear⟩
    [⟨255, 0, 0⟩, ⟨0, 255, 0⟩] ⟨255, 0, 0⟩ rfl

/-- The segment size is at most the whole domain. -/
theorem segmentSize_le_one {n : ℕ} (hn : 1 ≤ n) : segmentSize n ≤ 1 := by
  unfold segmentSize
  have h : (1 : ℚ) ≤ n := by exact_mod_cast hn
  rw [div_le_one (by linarith)]
  exact h

/-- The first plateau end is nonnegative. -/
theorem plateauEnd_zero_nonneg {n : ℕ} (hn : 1 ≤ n) : 0 ≤ plateauEnd n 0 := by
  unfold plateauEnd transitionSize
  have hs := (segmentSize_pos hn).le
  push_cast
  nlinarith

/-- Domains emitted by the loop past the first color form a nondecreasing
chain contained in `[plateauStart n i, plateauStart n (n-1)]`. -/
theorem stopsBody_domains (n : ℕ) (cs : List Rgb) :
    ∀ i : ℕ, 1 ≤ i → i + cs.length = n →
      List.Chain' (fun a b => a ≤ b) ((stopsBody n i cs).map Prod.snd) ∧
      ∀ d ∈ (stopsBody n i cs).map Prod.snd,
        plateauStart n i ≤ d ∧ d ≤ plateauStart n (n - 1) := by
  induction cs with
  | nil =>
    intro i _ _
    constructor
    · simp [stopsBody]
    · simp [stopsBody]
  | cons c rest ih =>
    intro i h1 h2
    simp only [List.length_cons] at h2
    have hn1 : 1 ≤ n := by omega
    have hi0 : ¬ i = 0 := by omega
    by_cases hr : rest = []
    · subst hr
      simp only [List.length_nil] at h2
      have hin : ¬ i < n - 1 := by omega
      have hieq : i = n - 1 := by omega
      have hshape : stopsBody n i [c] = [(from_rgba8 c, plateauStart n i)] := by
        simp [stopsBody, hi0, hin]
      rw [hshape]
      subst hieq
      constructor
      · simp
      · simp
    · have hrl : 0 < rest.length := List.length_pos.mpr hr
      have hin : i < n - 1 := by omega
      obtain ⟨ihc, ihb⟩ := ih (i + 1) (by omega) (by omega)
      have hps_pe := plateauStart_le_plateauEnd hn1 i
      have hpe_ps := plateauEnd_le_plateauStart_succ hn1 i
      have hps_mono := plateauStart_mono hn1 (Nat.le_succ i)
      have hpe_last := plateauEnd_le_last hn1 hin
      have hps_last : plateauStart n i ≤ plateauStart n (n - 1) :=
        plateauStart_mono hn1 (by omega)
      have hshape : stopsBody n i (c :: rest) =
          (from_rgba8 c, plateauStart n i) :: (from_rgba8 c, plateauEnd n i) ::
            stopsBody n (i + 1) rest := by
        simp [stopsBody, hi0, hin]
      rw [hshape]
      simp only [List.map_cons]
      constructor
      · refine List.chain'_cons.mpr ⟨hps_pe, ?_⟩
        refine List.chain'_cons'.mpr ⟨?_, ihc⟩
        intro y hy
        exact le_trans hpe_ps (ihb y (List.mem_of_mem_head? hy)).1
      · intro d hd
        simp only [List.mem_cons] at hd
        rcases hd with rfl | rfl | hd
        · exact ⟨le_rfl, hps_last⟩
        · exact ⟨hps_pe, hpe_last⟩
        · exact ⟨le_trans hps_mono (ihb d hd).1, (ihb d hd).2⟩

/-- Linear interpolation between equal endpoint colors is that color. -/
theorem lerpColor_self (c : GradColor) (t : ℚ) : lerpColor c c t = c := by
  unfold lerpColor
  cases c
  simp only [GradColor.mk.injEq]
  refine ⟨by ring, by ring, by ring, by ring⟩

/-- Scanning past stops whose domains are all strictly below the sample
position ends in the final segment; when that segment's two stops carry
the same color, the sample is exactly that color. -/
theorem sampleLinearAux_last_pair (fc : GradColor) :
    ∀ (l : List (GradColor × ℚ)) (cPrev : GradColor) (dPrev d1 d2 t : ℚ),
      (∀ d ∈ l.map Prod.snd, d < t) → d1 < t → t ≤ d2 →
      sampleLinearAux cPrev dPrev (l ++ [(fc, d1), (fc, d2)]) t = fc := by
  intro l
  induction l with
  | nil =>
    intro cPrev dPrev d1 d2 t _ h1 h2
    simp only [List.nil_append, sampleLinearAux, if_neg (not_le.mpr h1), if_pos h2]
    exact lerpColor_self fc _
  | cons p rest ih =>
    intro cPrev dPrev d1 d2 t hl h1 h2
    obtain ⟨c, d⟩ := p
    have hd : d < t := hl d (by simp)
    simp only [List.cons_append, sampleLinearAux, if_neg (not_le.mpr hd)]
    exact ih c d d1 d2 t (fun x hx => hl x (by simp [hx])) h1 h2

/-- Claim C6: for every color spec that parses into at least two colors
with `use_gradient = true`, the control-stop domains are nondecreasing and
lie in `[0, 1]`, and the gradient sampled (by the linear interpolation the
source selects by default) at domain `0` equals the gradient sampled at
domain `1` — the curve is cyclic. -/
theorem C6_gradient_curve (spec : List Char) (mode : InterpolationMode)
    (g : Gradient) (palette : List Rgb) (solid : Rgb)
    (h : build_gradient_from_color spec true mode = some (some g, palette, solid)) :
    List.Chain' (fun a b => a ≤ b) (g.stops.map Prod.snd) ∧
    (∀ d ∈ g.stops.map Prod.snd, 0 ≤ d ∧ d ≤ 1) ∧
    sampleLinear g.stops 0 = sampleLinear g.stops 1 := by
  obtain ⟨hg, hlen, -⟩ := build_gradient_inv spec true mode g palette solid h
  subst hg
  cases palette with
  | nil => simp at hlen
  | cons c0 rest =>
    simp only [List.length_cons] at hlen
    set n := (c0 :: rest).length with hn
    have hnval : n = rest.length + 1 := by simp [hn]
    have hn1 : 1 ≤ n := by omega
    have hn2 : 2 ≤ n := by omega
    have hrest : rest ≠ [] := by
      intro hx
      rw [hx] at hnval
      simp only [List.length_nil] at hnval
      omega
    have hrl : 0 < rest.length := List.length_pos.mpr hrest
    have hin0 : 0 < n - 1 := by omega
    obtain ⟨bch, bbd⟩ := stopsBody_domains n rest 1 le_rfl (by rw [hnval]; omega)
    have htr_pos := transitionSize_pos hn1
    have htr_seg := transitionSize_le_seg hn1
    have hseg1 := segmentSize_le_one hn1
    have hpe0_nonneg := plateauEnd_zero_nonneg hn1
    have hpe0_last : plateauEnd n 0 ≤ plateauStart n (n - 1) :=
      plateauEnd_le_last hn1 hin0
    have hlast_tail : plateauStart n (n - 1) ≤ 1 - transitionSize n :=
      plateauStart_last_le hn2
    have hps1_nonneg : 0 ≤ plateauStart n 1 := plateauStart_nonneg hn1 1
    have hpe0_ps1 : plateauEnd n 0 ≤ plateauStart n 1 := by
      have := plateauEnd_le_plateauStart_succ hn1 0
      simpa using this
    have hshape : (Gradient.mk (gradientStops (c0 :: rest)) mode).stops =
        (from_rgba8 c0, 0) :: (from_rgba8 c0, plateauEnd n 0) ::
          (stopsBody n 1 rest ++
            [(from_rgba8 c0, 1 - transitionSize n), (from_rgba8 c0, 1)]) := by
      show gradientStops (c0 :: rest) = _
      unfold gradientStops
      rw [show stopsBody (c0 :: rest).length 0 (c0 :: rest) =
          (from_rgba8 c0, 0) :: (from_rgba8 c0, plateauEnd n 0) ::
            stopsBody n 1 rest from by simp [stopsBody, ← hn, hin0]]
      simp [← hn]
    rw [hshape]
    have hbody_lt : ∀ d ∈ (stopsBody n 1 rest).map Prod.snd, d < 1 := by
      intro d hd
      have := (bbd d hd).2
      linarith
    refine ⟨?_, ?_, ?_⟩
    · rw [show ((from_rgba8 c0, (0 : ℚ)) :: (from_rgba8 c0, plateauEnd n 0) ::
          (stopsBody n 1 rest ++
            [(from_rgba8 c0, 1 - transitionSize n), (from_rgba8 c0, 1)])).map Prod.snd =
        ((0 : ℚ) :: plateauEnd n 0 :: (stopsBody n 1 rest).map Prod.snd) ++
          [1 - transitionSize n, 1] from by simp]
      rw [List.chain'_append]
      refine ⟨?_, ?_, ?_⟩
      · refine List.chain'_cons.mpr ⟨hpe0_nonneg, ?_⟩
        refine List.chain'_cons'.mpr ⟨?_, bch⟩
        intro y hy
        exact le_trans hpe0_ps1 (bbd y (List.mem_of_mem_head? hy)).1
      · exact List.chain'_cons.mpr ⟨by linarith, List.chain'_singleton _⟩
      · intro x hx y hy
        simp only [List.head?_cons, Option.mem_def, Option.some.injEq] at hy
        subst hy
        have hx2 := List.mem_of_mem_getLast? hx
        simp only [List.mem_cons] at hx2
        rcases hx2 with rfl | rfl | hx2
        · linarith
        · linarith
        · have := (bbd x hx2).2
          linarith
    · intro d hd
      simp only [List.map_cons, List.map_append, List.map_nil, List.mem_cons,
        List.mem_append, List.not_mem_nil, or_false] at hd
      rcases hd with rfl | rfl | hd | rfl | rfl
      · exact ⟨le_rfl, by linarith⟩
      · exact ⟨hpe0_nonneg, by linarith⟩
      · obtain ⟨hlo, hhi⟩ := bbd d hd
        exact ⟨by linarith, by linarith⟩
      · constructor <;> linarith
      · exact ⟨by norm_num, le_rfl⟩
    · have h0 : sampleLinear ((from_rgba8 c0, (0 : ℚ)) :: (from_rgba8 c0, plateauEnd n 0) ::
          (stopsBody n 1 rest ++
            [(from_rgba8 c0, 1 - transitionSize n), (from_rgba8 c0, 1)])) 0
          = from_rgba8 c0 := by
        simp [sampleLinear]
      have h1 : sampleLinear ((from_rgba8 c0, (0 : ℚ)) :: (from_rgba8 c0, plateauEnd n 0) ::
          (stopsBody n 1 rest ++
            [(from_rgba8 c0, 1 - transitionSize n), (from_rgba8 c0, 1)])) 1
          = from_rgba8 c0 := by
        rw [sampleLinear]
        rw [if_neg (by norm_num)]
        rw [show (from_rgba8 c0, plateauEnd n 0) ::
            (stopsBody n 1 rest ++
              [(from_rgba8 c0, 1 - transitionSize n), (from_rgba8 c0, 1)]) =
          ((from_rgba8 c0, plateauEnd n 0) :: stopsBody n 1 rest) ++
            [(from_rgba8 c0, 1 - transitionSize n), (from_rgba8 c0, 1)] from rfl]
        refine sampleLinearAux_last_pair (from_rgba8 c0) _ _ _ _ _ _ ?_ (by linarith) le_rfl
        intro d hd
        simp only [List.map_cons, List.mem_cons] at hd
        rcases hd with rfl | hd
        · linarith
        · exact hbody_lt d hd
      rw [h0, h1]

/-- Witness for C6 on the spec `"ff0000,00ff00"`. -/
theorem C6_witness :
    List.Chain' (fun a b => a ≤ b)
      ((Gradient.mk (gradientStops [⟨255, 0, 0⟩, ⟨0, 255, 0⟩])
          InterpolationMode.Linear).stops.map Prod.snd) ∧
    (∀ d ∈ (Gradient.mk (gradientStops [⟨255, 0, 0⟩, ⟨0, 255, 0⟩])
        InterpolationMode.Linear).stops.map Prod.snd, 0 ≤ d ∧ d ≤ 1) ∧
    sampleLinear (Gradient.mk (gradientStops [⟨255, 0, 0⟩, ⟨0, 255, 0⟩])
        InterpolationMode.Linear).stops 0
      = sampleLinear (Gradient.mk (gradientStops [⟨255, 0, 0⟩, ⟨0, 255, 0⟩])
          InterpolationMode.Linear).stops 1 :=
  C6_gradient_curve (String.toList "ff0000,00ff00") InterpolationMode.Linear
    ⟨gradientStops [⟨255, 0, 0⟩, ⟨0, 255, 0⟩], InterpolationMode.Linear⟩
    [⟨255, 0, 0⟩, ⟨0, 255, 0⟩] ⟨255, 0, 0⟩ rfl
